import Mathlib

/-!
Verification development for the netdev userspace datapath
(lib/dpif-netdev.c) and the GRE vport (datapath/vport-gre.c).

The C sources are shallowly embedded: structs become Lean structures,
machine integers become Nat (with explicit `% 2^32` where the C code
relies on unsigned wrap-around, namely the upcall queue head/tail
counters), fallible or potentially undefined code returns Option.
External collaborators that the spec declares out of scope (flow-key
parsing, NetDev I/O, packet header rewriting helpers, the PRNG and the
monotonic clock) are modelled abstractly, as documented at each
definition.
-/

namespace OVS

/-- MAX_PORTS from dpif-netdev.c: maximum number of ports. -/
def MAX_PORTS : Nat := 256

/-- MAX_FLOWS from dpif-netdev.c: maximum number of flows in the flow table. -/
def MAX_FLOWS : Nat := 65536

/-- N_QUEUES from dpif-netdev.c: number of upcall queues. -/
def N_QUEUES : Nat := 2

/-- MAX_QUEUE_LEN from dpif-netdev.c: maximum number of packets per queue. -/
def MAX_QUEUE_LEN : Nat := 128

/-- QUEUE_MASK = MAX_QUEUE_LEN - 1. -/
def QUEUE_MASK : Nat := MAX_QUEUE_LEN - 1

/-- ETH_HEADER_LEN: size of an Ethernet header (lib/packets.h). -/
def ETH_HEADER_LEN : Nat := 14

/-- UINT16_MAX, the size bound checked by dpif_netdev_execute. -/
def UINT16_MAX : Nat := 65535

/-- Cardinality of the unsigned 32-bit integers; queue head/tail counters
and the PRNG draws live modulo this. -/
def U32 : Nat := 4294967296

/-- OVSP_LOCAL: the reserved local port number 0. -/
def OVSP_LOCAL : Nat := 0

/-- OFPP_MAX from the OpenFlow headers (0xff00), used by the flow-key
in_port validity check in dpif_netdev_flow_from_nlattrs. -/
def OFPP_MAX : Nat := 65280

/-- OFPP_LOCAL (0xfffe). -/
def OFPP_LOCAL : Nat := 65534

/-- OFPP_NONE (0xffff). -/
def OFPP_NONE : Nat := 65535

/-- DPIF_UC_MISS: queue class of flow-table-miss upcalls (index 0). -/
def DPIF_UC_MISS : Fin 2 := 0

/-- DPIF_UC_ACTION: queue class of USERSPACE-action upcalls (index 1). -/
def DPIF_UC_ACTION : Fin 2 := 1

/-- errno EINVAL. -/
def EINVAL : Nat := 22

/-- errno EFBIG (the spec's TOO_BIG). -/
def EFBIG : Nat := 27

/-- errno EBUSY. -/
def EBUSY : Nat := 16

/-- errno ENOENT (the spec's NO_ENTRY). -/
def ENOENT : Nat := 2

/-- errno EEXIST. -/
def EEXIST : Nat := 17

/-- errno ENOBUFS (the spec's NO_BUFFER). -/
def ENOBUFS : Nat := 105

/-- errno EAGAIN (the spec's RETRY). -/
def EAGAIN : Nat := 11

/-- Modelled from the spec: packet header rewriting helpers
(eth_push_vlan, eth_pop_vlan, push_mpls, pop_mpls, packet_set_ipv4, ...
from lib/packets.c, which is outside src/) are recorded abstractly as a
journal of header operations applied to the packet. No claim depends on
the concrete bytes these helpers produce. -/
inductive HdrOp where
  | pushVlanTag (tci : Nat)
  | popVlanTag
  | pushMplsLse (ethertype lse : Nat)
  | popMplsLse (ethertype : Nat)
  | setEthernet (src dst : Nat)
  | setIpv4 (src dst tos ttl : Nat)
  | setIpv6 (proto src dst tclass label hlimit : Nat)
  | setTcpPort (src dst : Nat)
  | setUdpPort (src dst : Nat)
  | setMplsLse (lse : Nat)
deriving DecidableEq, Repr

/-- A packet buffer. `size` is the frame length in bytes; `l234` is an
abstract stand-in for the L2-L4 header contents that the external
flow_extract classifies; `tcpFlags` is what the external
packet_get_tcp_flags reads from the frame; `hdr` is the journal of
header rewrites applied by the action engine. -/
structure Packet where
  size : Nat
  l234 : Nat
  tcpFlags : Nat
  hdr : List HdrOp
deriving DecidableEq, Repr

/-- The canonical flow key (struct flow, lib/flow.h, external): the
in_port stamped at extraction plus the abstract L2-L4 tuple. Key match
in this datapath is exact (flow_equal), so the abstraction only needs
decidable equality. -/
structure FlowKey where
  in_port : Nat
  l234 : Nat
deriving DecidableEq, Repr

/-- Modelled from the spec: flow_extract (lib/flow.c, outside src/)
produces the canonical tuple from a packet, stamping in_port with the
receiving port number. -/
def flow_extract (pkt : Packet) (in_port : Nat) : FlowKey :=
  { in_port := in_port, l234 := pkt.l234 }

/-- The in_port validity check of dpif_netdev_flow_from_nlattrs
(dpif-netdev.c lines 858-861); the attribute parsing itself
(odp_flow_key_to_flow) is external and round-trips perfectly per the
spec, so the key is taken already parsed. -/
def flowKeyValid (k : FlowKey) : Bool :=
  if k.in_port < OFPP_MAX then decide (k.in_port < MAX_PORTS)
  else decide (k.in_port = OFPP_LOCAL) || decide (k.in_port = OFPP_NONE)

/-- The payload attributes of an OVS_KEY_ATTR_* SET action
(execute_set_action, dpif-netdev.c lines 1566-1627). -/
inductive SetKey where
  | priority (v : Nat)
  | skbMark (v : Nat)
  | tunnel (v : Nat)
  | ethernet (src dst : Nat)
  | ipv4 (src dst tos ttl : Nat)
  | ipv6 (proto src dst tclass label hlimit : Nat)
  | tcp (src dst : Nat)
  | udp (src dst : Nat)
  | mpls (lse : Nat)
deriving DecidableEq, Repr

mutual
/-- A typed OVS action attribute (enum ovs_action_attr, as interpreted
by dp_netdev_execute_actions). -/
inductive NlAction where
  | output (port : Nat)
  | userspace (userdata : Option Nat)
  | pushVlan (tci : Nat)
  | popVlan
  | pushMpls (ethertype lse : Nat)
  | popMpls (ethertype : Nat)
  | set (k : SetKey)
  | sample (attrs : List SampleAttr)

/-- A nested attribute of an OVS_ACTION_ATTR_SAMPLE action
(enum ovs_sample_attr, as iterated by dp_netdev_sample). -/
inductive SampleAttr where
  | probability (p : Nat)
  | nested (acts : List NlAction)
end

/-- A flow entry (struct dp_netdev_flow). -/
structure Flow where
  key : FlowKey
  used : Nat
  packet_count : Nat
  byte_count : Nat
  tcp_flags : Nat
  actions : List NlAction

/-- A queued upcall (struct dp_netdev_upcall / struct dpif_upcall): the
buffer assembly of serialized key, optional userdata and packet copy is
represented by the typed fields. -/
structure Upcall where
  type : Nat
  key : FlowKey
  userdata : Option Nat
  packet : Packet

instance : Inhabited Upcall :=
  ⟨{ type := 0, key := { in_port := 0, l234 := 0 }, userdata := none,
     packet := { size := 0, l234 := 0, tcpFlags := 0, hdr := [] } }⟩

/-- An upcall queue (struct dp_netdev_queue): a MAX_QUEUE_LEN slot ring
with free-running unsigned 32-bit head and tail counters. -/
structure Queue where
  upcalls : List Upcall
  head : Nat
  tail : Nat

/-- The unsigned 32-bit difference head - tail, the current number of
queued records (for head and tail below 2^32). -/
def queue_len (q : Queue) : Nat := (q.head + U32 - q.tail) % U32

/-- A port (struct dp_netdev_port). `sent` models the external
netdev_send: the list of packets transmitted on this port's netdev. -/
structure Port where
  port_no : Nat
  name : List Char
  sent : List Packet

/-- The datapath (struct dp_netdev). Counters n_hit / n_missed / n_lost
are monotone long long counters, modelled as unbounded Nat.
`classIsDefault` is the test dp->class == dpif_netdev_class used by
choose_port. `now` models the external monotonic clock time_msec().
`rng` models the external random_uint32() as an explicit stream of
uniform 32-bit draws. `ports` always has MAX_PORTS slots. -/
structure DP where
  classIsDefault : Bool
  queues_miss : Queue
  queues_action : Queue
  flow_table : List Flow
  n_hit : Nat
  n_missed : Nat
  n_lost : Nat
  ports : List (Option Port)
  port_list : List Nat
  serial : Nat
  now : Nat
  rng : List Nat

/-- Queue selection: dp->queues[queue_no] for queue_no in {DPIF_UC_MISS,
DPIF_UC_ACTION}. -/
def DP.getQueue (dp : DP) (i : Fin 2) : Queue :=
  if i.val = 0 then dp.queues_miss else dp.queues_action

/-- Write back dp->queues[queue_no]. -/
def DP.setQueue (dp : DP) (i : Fin 2) (q : Queue) : DP :=
  if i.val = 0 then { dp with queues_miss := q } else { dp with queues_action := q }

/-- Modelled from the spec: random_uint32 (lib/random.c, outside src/)
returns the next uniform 32-bit draw; the stream is explicit state. -/
def random_uint32 (dp : DP) : Nat × DP :=
  match dp.rng with
  | [] => (0, dp)
  | d :: rest => (d, { dp with rng := rest })

/-- dp_netdev_lookup_flow: exact-match scan of the flow table
(the hash index of the hmap does not change which entry matches). -/
def dp_netdev_lookup_flow (dp : DP) (key : FlowKey) : Option Flow :=
  dp.flow_table.find? (fun f => decide (f.key = key))

/-- Replace the first flow whose key equals `key` (the hit path mutates,
through the pointer returned by lookup, the entry it just looked up). -/
def update_flow : List Flow → FlowKey → Flow → List Flow
  | [], _, _ => []
  | f :: rest, key, f' =>
    if f.key = key then f' :: rest else f :: update_flow rest key f'

/-- Remove the first flow whose key equals `key` (hmap_remove of the
entry returned by lookup, in dp_netdev_free_flow). -/
def remove_flow : List Flow → FlowKey → List Flow
  | [], _ => []
  | f :: rest, key =>
    if f.key = key then rest else f :: remove_flow rest key

/-- dp_netdev_flow_used: the hit-path statistics update. -/
def dp_netdev_flow_used (flow : Flow) (now : Nat) (packet : Packet) : Flow :=
  { flow with
    used := now,
    packet_count := flow.packet_count + 1,
    byte_count := flow.byte_count + packet.size,
    tcp_flags := Nat.lor flow.tcp_flags packet.tcpFlags }

/-- dp_netdev_output_userspace (dpif-netdev.c lines 1458-1519): push an
upcall onto queue `queue_no`. Fails with ENOBUFS and counts the loss in
n_lost when the ring already holds MAX_QUEUE_LEN records (the source
condition is the unsigned test q->head - q->tail < MAX_QUEUE_LEN, and
head & QUEUE_MASK is head % MAX_QUEUE_LEN). -/
def dp_netdev_output_userspace (dp : DP) (packet : Packet) (queue_no : Fin 2)
    (flow : FlowKey) (userdata : Option Nat) : Nat × DP :=
  let q := dp.getQueue queue_no
  if queue_len q < MAX_QUEUE_LEN then
    let u : Upcall := { type := queue_no.val, key := flow, userdata := userdata, packet := packet }
    let q' : Queue := { upcalls := q.upcalls.set (q.head % MAX_QUEUE_LEN) u,
                        head := (q.head + 1) % U32, tail := q.tail }
    (0, dp.setQueue queue_no q')
  else
    (ENOBUFS, { dp with n_lost := dp.n_lost + 1 })

/-- find_nonempty_queue: the first queue with head != tail, scanning the
N_QUEUES = 2 queues in index order (MISS before ACTION). -/
def find_nonempty_queue (dp : DP) : Option (Fin 2) :=
  if (dp.getQueue 0).head ≠ (dp.getQueue 0).tail then some 0
  else if (dp.getQueue 1).head ≠ (dp.getQueue 1).tail then some 1
  else none

/-- dpif_netdev_recv: pop from the first nonempty queue (reading slot
tail & QUEUE_MASK, then incrementing tail); EAGAIN when both queues are
empty. -/
def dpif_netdev_recv (dp : DP) : Nat × Option Upcall × DP :=
  match find_nonempty_queue dp with
  | some i =>
    let q := dp.getQueue i
    let u := q.upcalls.getD (q.tail % MAX_QUEUE_LEN) default
    (0, some u, dp.setQueue i { q with tail := (q.tail + 1) % U32 })
  | none => (EAGAIN, none, dp)

/-- The zeroed flow entry built by dp_netdev_flow_add (xzalloc plus
set_flow_actions). -/
def newFlow (key : FlowKey) (actions : List NlAction) : Flow :=
  { key := key, used := 0, packet_count := 0, byte_count := 0,
    tcp_flags := 0, actions := actions }

/-- dp_netdev_flow_add: insert a fresh zero-stats flow. -/
def dp_netdev_flow_add (dp : DP) (key : FlowKey) (actions : List NlAction) : Nat × DP :=
  (0, { dp with flow_table := dp.flow_table ++ [newFlow key actions] })

/-- clear_stats. -/
def clear_stats (flow : Flow) : Flow :=
  { flow with used := 0, packet_count := 0, byte_count := 0, tcp_flags := 0 }

/-- Argument block of dpif_netdev_flow_put: parsed key, the flag bits
DPIF_FP_CREATE / DPIF_FP_MODIFY / DPIF_FP_ZERO_STATS, and the actions. -/
structure FlowPut where
  key : FlowKey
  create : Bool
  modify : Bool
  zero_stats : Bool
  actions : List NlAction

/-- dpif_netdev_flow_put (dpif-netdev.c lines 941-993). The returned
stats snapshot (an out parameter in C) is not modelled. -/
def dpif_netdev_flow_put (dp : DP) (put : FlowPut) : Nat × DP :=
  if flowKeyValid put.key then
    match dp_netdev_lookup_flow dp put.key with
    | none =>
      if put.create then
        if dp.flow_table.length < MAX_FLOWS then
          dp_netdev_flow_add dp put.key put.actions
        else (EFBIG, dp)
      else (ENOENT, dp)
    | some flow =>
      if put.modify then
        let f1 := { flow with actions := put.actions }
        let f2 := if put.zero_stats then clear_stats f1 else f1
        (0, { dp with flow_table := update_flow dp.flow_table put.key f2 })
      else (EEXIST, dp)
  else (EINVAL, dp)

/-- dpif_netdev_flow_del. -/
def dpif_netdev_flow_del (dp : DP) (key : FlowKey) : Nat × DP :=
  if flowKeyValid key then
    match dp_netdev_lookup_flow dp key with
    | some _ => (0, { dp with flow_table := remove_flow dp.flow_table key })
    | none => (ENOENT, dp)
  else (EINVAL, dp)

/-- dp_netdev_output_port (dpif-netdev.c lines 1448-1456): read
dp->ports[out_port] and transmit on it when non-NULL. The C code indexes
the MAX_PORTS-slot array without any bounds check, so an out_port at or
above MAX_PORTS is an out-of-bounds read; that undefined behavior is
modelled as `none`. -/
def dp_netdev_output_port (dp : DP) (packet : Packet) (out_port : Nat) : Option DP :=
  if out_port < MAX_PORTS then
    match dp.ports.getD out_port none with
    | some p =>
      let p' : Port := { p with sent := p.sent ++ [packet] }
      some { dp with ports := dp.ports.set out_port (some p') }
    | none => some dp
  else none

/-- execute_set_action (dpif-netdev.c lines 1566-1627): PRIORITY,
SKB_MARK and TUNNEL are accepted and ignored; the rest rewrite header
fields via the external packets.c helpers (journalled). -/
def execute_set_action (packet : Packet) : SetKey → Packet
  | .priority _ => packet
  | .skbMark _ => packet
  | .tunnel _ => packet
  | .ethernet src dst => { packet with hdr := .setEthernet src dst :: packet.hdr }
  | .ipv4 src dst tos ttl => { packet with hdr := .setIpv4 src dst tos ttl :: packet.hdr }
  | .ipv6 proto src dst tclass label hlimit =>
    { packet with hdr := .setIpv6 proto src dst tclass label hlimit :: packet.hdr }
  | .tcp src dst => { packet with hdr := .setTcpPort src dst :: packet.hdr }
  | .udp src dst => { packet with hdr := .setUdpPort src dst :: packet.hdr }
  | .mpls lse => { packet with hdr := .setMplsLse lse :: packet.hdr }

mutual
/-- dp_netdev_execute_actions (dpif-netdev.c lines 1629-1683): interpret
the action attributes in stream order. `none` propagates undefined
behavior (an out-of-bounds OUTPUT port, or a SAMPLE with no nested
ACTIONS attribute, where the C code dereferences NULL). -/
def dp_netdev_execute_actions (dp : DP) (packet : Packet) (key : FlowKey) :
    List NlAction → Option (DP × Packet)
  | [] => some (dp, packet)
  | a :: rest =>
    match execute_action dp packet key a with
    | some (dp', pkt') => dp_netdev_execute_actions dp' pkt' key rest
    | none => none
termination_by acts => 2 * sizeOf acts

/-- One case of the dp_netdev_execute_actions switch. The USERSPACE
action enqueues an upcall of class DPIF_UC_ACTION and ignores the push
result; the header-rewriting actions call the external packets.c
helpers, journalled on the packet. -/
def execute_action (dp : DP) (packet : Packet) (key : FlowKey) :
    NlAction → Option (DP × Packet)
  | .output port =>
    match dp_netdev_output_port dp packet port with
    | some dp' => some (dp', packet)
    | none => none
  | .userspace userdata =>
    some ((dp_netdev_output_userspace dp packet DPIF_UC_ACTION key userdata).2, packet)
  | .pushVlan tci => some (dp, { packet with hdr := .pushVlanTag tci :: packet.hdr })
  | .popVlan => some (dp, { packet with hdr := .popVlanTag :: packet.hdr })
  | .pushMpls ethertype lse =>
    some (dp, { packet with hdr := .pushMplsLse ethertype lse :: packet.hdr })
  | .popMpls ethertype =>
    some (dp, { packet with hdr := .popMplsLse ethertype :: packet.hdr })
  | .set k => some (dp, execute_set_action packet k)
  | .sample attrs => dp_netdev_sample dp packet key attrs none
termination_by a => 2 * sizeOf a + 1

/-- dp_netdev_sample (dpif-netdev.c lines 1521-1553): iterate the nested
attributes in order; a PROBABILITY attribute draws random_uint32() and
returns early (skipping the sample) when the draw is >= the probability;
an ACTIONS attribute records the subactions. After the loop the recorded
subactions are executed; if none were recorded the C code passes NULL to
nl_attr_get (undefined, modelled as `none`). -/
def dp_netdev_sample (dp : DP) (packet : Packet) (key : FlowKey) :
    List SampleAttr → Option (List NlAction) → Option (DP × Packet)
  | [], sub =>
    match sub with
    | some acts => dp_netdev_execute_actions dp packet key acts
    | none => none
  | .probability p :: rest, sub =>
    match random_uint32 dp with
    | (r, dp') =>
      if r ≥ p then some (dp', packet)
      else dp_netdev_sample dp' packet key rest sub
  | .nested acts :: rest, _ => dp_netdev_sample dp packet key rest (some acts)
termination_by attrs sub => 2 * (sizeOf attrs + sizeOf sub)
end

/-- dp_netdev_port_input (dpif-netdev.c lines 1236-1257): drop frames
shorter than an Ethernet header; extract the key with in_port stamped
from the receiving port; on a hit update the flow statistics, run the
action engine, then increment n_hit; on a miss increment n_missed and
try to enqueue a MISS upcall (whose push failure is ignored beyond the
n_lost bump inside dp_netdev_output_userspace). The port argument is
the receiving port's number (the C code uses only port->port_no). -/
def dp_netdev_port_input (dp : DP) (port_no : Nat) (packet : Packet) : Option DP :=
  if packet.size < ETH_HEADER_LEN then some dp
  else
    let key := flow_extract packet port_no
    match dp_netdev_lookup_flow dp key with
    | some flow =>
      let dp1 : DP :=
        { dp with flow_table := update_flow dp.flow_table key (dp_netdev_flow_used flow dp.now packet) }
      match dp_netdev_execute_actions dp1 packet key flow.actions with
      | some (dp2, _) => some { dp2 with n_hit := dp2.n_hit + 1 }
      | none => none
    | none =>
      let dp1 : DP := { dp with n_missed := dp.n_missed + 1 }
      some (dp_netdev_output_userspace dp1 packet DPIF_UC_MISS key none).2

/-- dpif_netdev_execute (dpif-netdev.c lines 1100-1128): reject packets
shorter than an Ethernet header or larger than UINT16_MAX; otherwise run
the action engine on a deep copy of the packet against the supplied key
(which fully replaces the extracted one when it parses; an invalid key
is EINVAL and nothing runs). -/
def dpif_netdev_execute (dp : DP) (packet : Packet) (key : FlowKey)
    (actions : List NlAction) : Nat × Option DP :=
  if packet.size < ETH_HEADER_LEN ∨ UINT16_MAX < packet.size then (EINVAL, some dp)
  else if flowKeyValid key then
    match dp_netdev_execute_actions dp packet key actions with
    | some (dp', _) => (0, some dp')
    | none => (0, none)
  else (EINVAL, some dp)

/-- Test for an empty ports slot (the !dp->ports[port_no] checks). Only
meaningful for indices below MAX_PORTS. -/
def port_free (dp : DP) (i : Nat) : Bool := (dp.ports.getD i none).isNone

/-- do_add_port (dpif-netdev.c lines 485-545), its netdev_open /
netdev_listen / netdev_turn_flags_on calls (external device I/O)
modelled as succeeding: create the port, append it to the port list,
store it in the slot and bump the serial. -/
def do_add_port (dp : DP) (devname : List Char) (port_no : Nat) : Nat × DP :=
  let port : Port := { port_no := port_no, name := devname, sent := [] }
  let dp' : DP := { dp with
    ports := dp.ports.set port_no (some port),
    port_list := dp.port_list ++ [port_no],
    serial := dp.serial + 1 }
  (0, dp')

/-- do_del_port (dpif-netdev.c lines 636-660): look the port up by
number (EINVAL above MAX_PORTS, ENOENT on an empty slot), unlink it from
the list, clear the slot and bump the serial. -/
def do_del_port (dp : DP) (port_no : Nat) : Nat × DP :=
  if port_no < MAX_PORTS then
    match dp.ports.getD port_no none with
    | some port =>
      let dp' : DP := { dp with
        ports := dp.ports.set port.port_no none,
        port_list := dp.port_list.erase port.port_no,
        serial := dp.serial + 1 }
      (0, dp')
    | none => (ENOENT, dp)
  else (EINVAL, dp)

/-- dpif_netdev_port_del: deleting the LOCAL port 0 is EINVAL. -/
def dpif_netdev_port_del (dp : DP) (port_no : Nat) : Nat × DP :=
  if port_no = OVSP_LOCAL then (EINVAL, dp) else do_del_port dp port_no

/-- isdigit on the port-name characters scanned by choose_port. -/
def isDigitChar (c : Char) : Bool := decide ('0' ≤ c) && decide (c ≤ '9')

/-- strtol(p, NULL, 10) for a string starting at a digit: the value of
the leading run of digits. -/
def strtol10 (s : List Char) : Nat :=
  (s.takeWhile isDigitChar).foldl (fun a c => a * 10 + (c.toNat - 48)) 0

/-- The suffix of the name starting at its first digit, if any (the
for-loop scan in choose_port). -/
def digitSuffix : List Char → Option (List Char)
  | [] => none
  | c :: rest => if isDigitChar c then some (c :: rest) else digitSuffix rest

/-- The final scan of choose_port: the lowest free slot in
[1, MAX_PORTS), if any. -/
def lowest_free_port (dp : DP) : Option Nat :=
  (List.range' 1 (MAX_PORTS - 1)).find? (port_free dp)

/-- The start_no offset of choose_port: 100 when the port name begins
with "br" (the strncmp(name, "br", 2) test), 0 otherwise. -/
def startNo (name : List Char) : Nat := if name.take 2 = ['b', 'r'] then 100 else 0

/-- choose_port (dpif-netdev.c lines 255-292). For a non-default class:
a name beginning with "br" offsets the digit-derived number by 100; the
number at the first digit of the name is tried first and, when it is
unusable (zero, too big or occupied), the code falls through to the
generic lowest-free-slot scan, which also serves the default class and
digitless names. Returns none for -1 (no free slot). -/
def choose_port (dp : DP) (name : List Char) : Option Nat :=
  if dp.classIsDefault then lowest_free_port dp
  else
    match digitSuffix name with
    | some s =>
      let port_no := startNo name + strtol10 s
      if 0 < port_no ∧ port_no < MAX_PORTS ∧ port_free dp port_no then some port_no
      else lowest_free_port dp
    | none => lowest_free_port dp

/-- dpif_netdev_port_add (dpif-netdev.c lines 547-570). `none` for
port_nop models the UINT32_MAX request for an automatic number. Returns
the errno, the assigned number and the new state. -/
def dpif_netdev_port_add (dp : DP) (devname : List Char) (port_nop : Option Nat) :
    Nat × Option Nat × DP :=
  match port_nop with
  | some n =>
    if n ≥ MAX_PORTS then (EFBIG, some n, dp)
    else if ¬ port_free dp n then (EBUSY, some n, dp)
    else
      let r := do_add_port dp devname n
      (r.1, some n, r.2)
  | none =>
    match choose_port dp devname with
    | some p =>
      let r := do_add_port dp devname p
      (r.1, some p, r.2)
    | none => (EFBIG, none, dp)

/-- A dpif handle (struct dpif_netdev): the client's cached serial. -/
structure DpifClient where
  dp_serial : Nat
deriving DecidableEq, Repr

/-- create_dpif_netdev: a fresh handle caches the current serial. -/
def create_dpif_netdev (dp : DP) : DpifClient := { dp_serial := dp.serial }

/-- dpif_netdev_port_poll (dpif-netdev.c lines 783-793): ENOBUFS (and a
cache resync) when the cached serial differs from the datapath's,
otherwise EAGAIN. -/
def dpif_netdev_port_poll (client : DpifClient) (dp : DP) : Nat × DpifClient :=
  if client.dp_serial ≠ dp.serial then (ENOBUFS, { dp_serial := dp.serial })
  else (EAGAIN, client)

/-- A port-set mutation issued through the dpif interface. -/
inductive PortOp where
  | add (devname : List Char) (port_nop : Option Nat)
  | del (port_no : Nat)

/-- Apply one port-set mutation, returning its errno and the new state. -/
def apply_port_op (dp : DP) : PortOp → Nat × DP
  | .add devname port_nop =>
    let r := dpif_netdev_port_add dp devname port_nop
    (r.1, r.2.2)
  | .del port_no => dpif_netdev_port_del dp port_no

/-- Run a sequence of port-set mutations. -/
def run_port_ops (dp : DP) : List PortOp → DP
  | [] => dp
  | op :: rest => run_port_ops (apply_port_op dp op).2 rest

/-- The number of successful mutations in a run. -/
def count_port_ok (dp : DP) : List PortOp → Nat
  | [] => 0
  | op :: rest =>
    let r := apply_port_op dp op
    (if r.1 = 0 then 1 else 0) + count_port_ok r.2 rest

/-- Host endianness, the __BIG_ENDIAN / little-endian split in
vport-gre.c. -/
inductive Endian where
  | big
  | little
deriving DecidableEq, Repr

/-- Byte swap of a 32-bit value (byte reversal). -/
def bswap32 (x : Nat) : Nat :=
  (x % 256) * 16777216 + (x / 256 % 256) * 65536 + (x / 65536 % 256) * 256 + (x / 16777216 % 256)

/-- Byte swap of a 64-bit value: swap the two 32-bit halves and byte
swap each half. -/
def bswap64 (x : Nat) : Nat := bswap32 (x % U32) * U32 + bswap32 (x / U32)

/-- The host-order 32-bit word holding a network-order (__be32) value:
the identity on a big-endian host, a byte swap on a little-endian one. -/
def hostOfNet32 (e : Endian) (n : Nat) : Nat :=
  match e with
  | .big => n
  | .little => bswap32 n

/-- The network value a host-order 32-bit word represents on the wire. -/
def netOfHost32 (e : Endian) (h : Nat) : Nat :=
  match e with
  | .big => h
  | .little => bswap32 h

/-- The host-order 64-bit word holding a network-order (__be64) value. -/
def hostOfNet64 (e : Endian) (n : Nat) : Nat :=
  match e with
  | .big => n
  | .little => bswap64 n

/-- The network value a host-order 64-bit word represents on the wire. -/
def netOfHost64 (e : Endian) (h : Nat) : Nat :=
  match e with
  | .big => h
  | .little => bswap64 h

/-- be64_get_low32 (vport-gre.c lines 52-60): on a big-endian host the
truncating cast of the host word, on a little-endian host the host word
shifted right by 32 (each truncated to 32 bits by the __be32 cast). -/
def be64_get_low32 (e : Endian) (x : Nat) : Nat :=
  match e with
  | .big => x % U32
  | .little => x / U32 % U32

/-- be64_get_high32 (vport-gre.c lines 327-334): the mirror image of
be64_get_low32. -/
def be64_get_high32 (e : Endian) (x : Nat) : Nat :=
  match e with
  | .big => x / U32 % U32
  | .little => x % U32

/-- key_to_tunnel_id (vport-gre.c lines 88-95): recompose the 64-bit
host word from the received GRE key and sequence host words; the C
bitwise-or of a left-shifted 32-bit value with a 32-bit value is
addition of disjoint halves. -/
def key_to_tunnel_id (e : Endian) (key seq : Nat) : Nat :=
  match e with
  | .big => (seq % U32) * U32 + key % U32
  | .little => (key % U32) * U32 + seq % U32

/-- The tunnel flag bits used by the GRE vport (TUNNEL_CSUM, TUNNEL_KEY,
TUNNEL_SEQ, TUNNEL_DONT_FRAGMENT), modelled one named bit each. -/
structure TnlFlags where
  csum : Bool
  key : Bool
  seq : Bool
  dont_fragment : Bool
deriving DecidableEq, Repr

/-- filter_tnl_flags (vport-gre.c lines 62-65): keep only TUNNEL_CSUM
and TUNNEL_KEY. -/
def filter_tnl_flags (f : TnlFlags) : TnlFlags :=
  { csum := f.csum, key := f.key, seq := false, dont_fragment := false }

/-- The GRE header fields written by gre_build_header (struct
tnl_ptk_info): flags plus the key and sequence host words. -/
structure TnlPtkInfo where
  flags : TnlFlags
  key : Nat
  seq : Nat
deriving DecidableEq, Repr

/-- The tpi built by gre64_send / __build_header (vport-gre.c lines
67-86 and 336-349): filtered tunnel flags with TUNNEL_SEQ forced on,
key = be64_get_low32(tun_id), seq = be64_get_high32(tun_id), where
tun_id is the 64-bit host word of the per-packet tunnel key. -/
def gre64_build_tpi (e : Endian) (tun_flags : TnlFlags) (tun_id : Nat) : TnlPtkInfo :=
  { flags := { filter_tnl_flags tun_flags with seq := true },
    key := be64_get_low32 e tun_id,
    seq := be64_get_high32 e tun_id }

/-- The receive-side dispatch test of gre_rcv (vport-gre.c lines
107-110): the GRE64 vport handles the frame iff both TUNNEL_KEY and
TUNNEL_SEQ are present. -/
def gre_rcv_is_gre64 (f : TnlFlags) : Bool := f.key && f.seq

/-- The tun_id recomposed by gre_rcv (vport-gre.c line 114). -/
def gre_rcv_tun_id (e : Endian) (tpi : TnlPtkInfo) : Nat :=
  key_to_tunnel_id e tpi.key tpi.seq

/-- The control-plane view that the action engine never touches: the
flow table and the n_hit / n_missed counters. -/
def ctl (dp : DP) : List Flow × Nat × Nat := (dp.flow_table, dp.n_hit, dp.n_missed)

/-- The intermediate state of the dp_netdev_port_input hit path after
dp_netdev_flow_used has updated (through the pointer returned by
lookup) the entry it just looked up, before the action engine runs. -/
def hit_state (dp : DP) (key : FlowKey) (flow : Flow) (pkt : Packet) : DP :=
  { dp with flow_table := update_flow dp.flow_table key (dp_netdev_flow_used flow dp.now pkt) }

/-- An empty upcall queue with its MAX_QUEUE_LEN uninitialized slots. -/
def Queue0 : Queue := { upcalls := List.replicate MAX_QUEUE_LEN default, head := 0, tail := 0 }

/-- A freshly created empty datapath (concrete test state). -/
def DP0 : DP :=
  { classIsDefault := true, queues_miss := Queue0, queues_action := Queue0,
    flow_table := [], n_hit := 0, n_missed := 0, n_lost := 0,
    ports := List.replicate MAX_PORTS none, port_list := [], serial := 0,
    now := 0, rng := [] }

/-- A minimal Ethernet frame (concrete test packet). -/
def pkt14 : Packet := { size := 14, l234 := 0, tcpFlags := 0, hdr := [] }

/-- A datapath whose MISS queue is full: head - tail = MAX_QUEUE_LEN. -/
def dpFullMiss : DP := { DP0 with queues_miss := { Queue0 with head := MAX_QUEUE_LEN } }

/-- A port object with no traffic yet. -/
def portObj (n : Nat) : Port := { port_no := n, name := [], sent := [] }

/-- A datapath with ports 2 and 3 attached. -/
def dpPorts : DP :=
  { DP0 with ports := (DP0.ports.set 2 (some (portObj 2))).set 3 (some (portObj 3)) }

/-- dpPorts with a PRNG stream whose next uniform draw is 2^32 - 1. -/
def dpMaxDraw : DP := { dpPorts with rng := [U32 - 1] }

/-- The S6-style action list: a SAMPLE of OUTPUT(2) at probability
2^32 - 1 followed by OUTPUT(3). -/
def actsSample : List NlAction :=
  [.sample [.probability (U32 - 1), .nested [.output 2]], .output 3]

/-- A concrete flow key on port 1. -/
def keyW : FlowKey := { in_port := 1, l234 := 0 }

/-- The packets transmitted so far on port n (empty when the port is
absent); reads the `sent` journal of the NetDev model. -/
def portSent (dp : DP) (n : Nat) : List Packet :=
  match dp.ports.getD n none with
  | some p => p.sent
  | none => []

/-- A concrete installed flow with no actions and some prior stats. -/
def flowW : Flow :=
  { key := { in_port := 1, l234 := 9 }, used := 3, packet_count := 4,
    byte_count := 50, tcp_flags := 1, actions := [] }

/-- A datapath holding flowW, at monotonic time 77 ms. -/
def dpW : DP := { DP0 with flow_table := [flowW], now := 77 }

/-- A frame on port 1 that classifies to flowW's key. -/
def pktW : Packet := { size := 20, l234 := 9, tcpFlags := 2, hdr := [] }

/-- The i-th of MAX_FLOWS pairwise distinct valid flows. -/
def flowOfIdx (i : Nat) : Flow := newFlow { in_port := 0, l234 := i } []

/-- A flow table holding exactly MAX_FLOWS distinct flows. -/
def bigTable : List Flow := (List.range MAX_FLOWS).map flowOfIdx

/-- A datapath whose flow table is full. -/
def bigDP : DP := { DP0 with flow_table := bigTable }

/-- The key of the MAX_FLOWS-th flow, absent from bigTable. -/
def keyNew : FlowKey := { in_port := 0, l234 := MAX_FLOWS }

/-- Cardinality of the unsigned 64-bit integers. -/
def U64 : Nat := 18446744073709551616

/-- The state after the SAMPLE at probability 2^32 - 1 is skipped on the
draw 2^32 - 1 and OUTPUT(3) has transmitted the frame. -/
def dpMaxRes : DP :=
  { dpMaxDraw with
    rng := [],
    ports := dpMaxDraw.ports.set 3 (some { portObj 3 with sent := [pkt14] }) }

/-- DP0 after port_add of port 5 (first mutation). -/
def dp6a : DP := (dpif_netdev_port_add DP0 [] (some 5)).2.2

/-- dp6a after port_add of port 6 (second mutation). -/
def dp6b : DP := (dpif_netdev_port_add dp6a [] (some 6)).2.2

/-- A datapath whose next PRNG draw is 5. -/
def dpWithDraw : DP := { DP0 with rng := [5] }

/-- An empty datapath registered under a non-default (dummy) class. -/
def dpDummyClass : DP := { DP0 with classIsDefault := false }

/-- The port name "br5". -/
def nameBr5 : List Char := ['b', 'r', '5']

theorem bswap32_lt (x : Nat) : bswap32 x < U32 := by
  unfold bswap32 U32
  omega

theorem bswap32_bytes (a b c d : Nat) (ha : a < 256) (hb : b < 256) (hc : c < 256)
    (hd : d < 256) :
    bswap32 (a * 16777216 + b * 65536 + c * 256 + d) =
      d * 16777216 + c * 65536 + b * 256 + a := by
  unfold bswap32
  omega

theorem bswap32_bswap32 (x : Nat) (h : x < U32) : bswap32 (bswap32 x) = x := by
  have h' : x < 4294967296 := by unfold U32 at h; exact h
  obtain ⟨a, b, c, d, ha, hb, hc, hd, rfl⟩ :
      ∃ a b c d, a < 256 ∧ b < 256 ∧ c < 256 ∧ d < 256 ∧
        x = a * 16777216 + b * 65536 + c * 256 + d :=
    ⟨x / 16777216, x / 65536 % 256, x / 256 % 256, x % 256,
      by omega, by omega, by omega, by omega, by omega⟩
  rw [bswap32_bytes a b c d ha hb hc hd, bswap32_bytes d c b a hd hc hb ha]

theorem lookup_eq_none_iff (dp : DP) (k : FlowKey) :
    dp_netdev_lookup_flow dp k = none ↔ ∀ f ∈ dp.flow_table, f.key ≠ k := by
  unfold dp_netdev_lookup_flow
  rw [List.find?_eq_none]
  simp

theorem lookup_some_key (dp : DP) (k : FlowKey) (f : Flow)
    (h : dp_netdev_lookup_flow dp k = some f) : f.key = k := by
  have := List.find?_some h
  simpa using this

theorem find?_update_flow (t : List Flow) (k : FlowKey) (f f' : Flow)
    (h : t.find? (fun g => decide (g.key = k)) = some f) (hk : f'.key = k) :
    (update_flow t k f').find? (fun g => decide (g.key = k)) = some f' := by
  induction t with
  | nil => simp at h
  | cons g rest ih =>
    by_cases hg : g.key = k
    · rw [update_flow, if_pos hg]
      rw [List.find?_cons_of_pos _ (by simpa using hk)]
    · rw [update_flow, if_neg hg]
      rw [List.find?_cons_of_neg _ (by simpa using hg)]
      rw [List.find?_cons_of_neg _ (by simpa using hg)] at h
      exact ih h

theorem update_flow_length (t : List Flow) (k : FlowKey) (f' : Flow) :
    (update_flow t k f').length = t.length := by
  induction t with
  | nil => rfl
  | cons g rest ih =>
    rw [update_flow]
    by_cases hg : g.key = k
    · rw [if_pos hg]
      simp
    · rw [if_neg hg]
      simp [ih]

theorem remove_flow_length (t : List Flow) (k : FlowKey) (f : Flow)
    (h : t.find? (fun g => decide (g.key = k)) = some f) :
    (remove_flow t k).length + 1 = t.length := by
  induction t with
  | nil => simp at h
  | cons g rest ih =>
    by_cases hg : g.key = k
    · rw [remove_flow, if_pos hg]
      simp
    · rw [remove_flow, if_neg hg]
      rw [List.find?_cons_of_neg _ (by simpa using hg)] at h
      simp only [List.length_cons]
      rw [← ih h]

theorem remove_flow_mem (t : List Flow) (k : FlowKey) (f : Flow)
    (h : f ∈ remove_flow t k) : f ∈ t := by
  induction t with
  | nil => simp [remove_flow] at h
  | cons g rest ih =>
    rw [remove_flow] at h
    by_cases hg : g.key = k
    · rw [if_pos hg] at h
      exact List.mem_cons_of_mem g h
    · rw [if_neg hg] at h
      rcases List.mem_cons.mp h with h1 | h1
      · exact h1 ▸ List.mem_cons_self g rest
      · exact List.mem_cons_of_mem g (ih h1)

theorem setQueue_ctl (dp : DP) (i : Fin 2) (q : Queue) : ctl (dp.setQueue i q) = ctl dp := by
  unfold DP.setQueue
  split <;> rfl

theorem output_userspace_ctl (dp : DP) (pkt : Packet) (i : Fin 2) (k : FlowKey)
    (ud : Option Nat) : ctl (dp_netdev_output_userspace dp pkt i k ud).2 = ctl dp := by
  unfold dp_netdev_output_userspace
  dsimp only
  split
  · exact setQueue_ctl dp i _
  · rfl

theorem output_port_ctl (dp : DP) (pkt : Packet) (p : Nat) (dp' : DP)
    (h : dp_netdev_output_port dp pkt p = some dp') : ctl dp' = ctl dp := by
  unfold dp_netdev_output_port at h
  split at h
  · split at h
    · cases h
      rfl
    · cases h
      rfl
  · cases h

theorem random_ctl (dp : DP) : ctl (random_uint32 dp).2 = ctl dp := by
  unfold random_uint32
  cases dp.rng <;> rfl

theorem exec_preserves (n : Nat) :
    (∀ (acts : List NlAction) (dp : DP) (pkt : Packet) (key : FlowKey) (r : DP × Packet),
      2 * sizeOf acts ≤ n → dp_netdev_execute_actions dp pkt key acts = some r →
        ctl r.1 = ctl dp) ∧
    (∀ (a : NlAction) (dp : DP) (pkt : Packet) (key : FlowKey) (r : DP × Packet),
      2 * sizeOf a + 1 ≤ n → execute_action dp pkt key a = some r → ctl r.1 = ctl dp) ∧
    (∀ (attrs : List SampleAttr) (sub : Option (List NlAction)) (dp : DP) (pkt : Packet)
      (key : FlowKey) (r : DP × Packet),
      2 * (sizeOf attrs + sizeOf sub) ≤ n → dp_netdev_sample dp pkt key attrs sub = some r →
        ctl r.1 = ctl dp) := by
  induction n with
  | zero =>
    refine ⟨?_, ?_, ?_⟩
    · intro acts dp pkt key r hn
      cases acts <;> simp at hn
    · intro a dp pkt key r hn
      omega
    · intro attrs sub dp pkt key r hn
      cases attrs <;> simp at hn
  | succ n ih =>
    obtain ⟨ihA, ihB, ihC⟩ := ih
    refine ⟨?_, ?_, ?_⟩
    · intro acts dp pkt key r hn h
      cases acts with
      | nil =>
        simp only [dp_netdev_execute_actions] at h
        cases h
        rfl
      | cons a rest =>
        simp only [dp_netdev_execute_actions] at h
        cases h1 : execute_action dp pkt key a with
        | none => rw [h1] at h; cases h
        | some r1 =>
          rw [h1] at h
          simp only at h
          have hs : sizeOf (a :: rest) = 1 + sizeOf a + sizeOf rest := by simp
          have e1 : ctl r1.1 = ctl dp := ihB a dp pkt key r1 (by omega) h1
          have e2 : ctl r.1 = ctl r1.1 := ihA rest r1.1 r1.2 key r (by omega) h
          rw [e2, e1]
    · intro a dp pkt key r hn h
      cases a with
      | output port =>
        simp only [execute_action] at h
        cases h2 : dp_netdev_output_port dp pkt port with
        | none => rw [h2] at h; cases h
        | some dp' =>
          rw [h2] at h
          simp only at h
          cases h
          exact output_port_ctl dp pkt port dp' h2
      | userspace ud =>
        simp only [execute_action] at h
        cases h
        exact output_userspace_ctl dp pkt DPIF_UC_ACTION key ud
      | pushVlan tci =>
        simp only [execute_action] at h
        cases h
        rfl
      | popVlan =>
        simp only [execute_action] at h
        cases h
        rfl
      | pushMpls ethertype lse =>
        simp only [execute_action] at h
        cases h
        rfl
      | popMpls ethertype =>
        simp only [execute_action] at h
        cases h
        rfl
      | set sk =>
        simp only [execute_action] at h
        cases h
        rfl
      | sample attrs =>
        simp only [execute_action] at h
        have hs : sizeOf (NlAction.sample attrs) = 1 + sizeOf attrs := by simp
        have hnone : sizeOf (none : Option (List NlAction)) = 1 := by simp
        exact ihC attrs none dp pkt key r (by omega) h
    · intro attrs sub dp pkt key r hn h
      cases attrs with
      | nil =>
        cases sub with
        | none =>
          simp only [dp_netdev_sample] at h
          cases h
        | some acts =>
          simp only [dp_netdev_sample] at h
          have hs : sizeOf (some acts : Option (List NlAction)) = 1 + sizeOf acts := by simp
          have hl : sizeOf ([] : List SampleAttr) = 1 := by simp
          exact ihA acts dp pkt key r (by omega) h
      | cons attr rest =>
        cases attr with
        | probability p =>
          simp only [dp_netdev_sample] at h
          cases hr : random_uint32 dp with
          | mk d dp2 =>
            rw [hr] at h
            simp only at h
            have hctl2 : ctl dp2 = ctl dp := by
              have := random_ctl dp
              rw [hr] at this
              exact this
            by_cases hge : d ≥ p
            · rw [if_pos hge] at h
              cases h
              exact hctl2
            · rw [if_neg hge] at h
              have hs : sizeOf (SampleAttr.probability p :: rest) =
                  1 + (1 + p) + sizeOf rest := by simp
              have e1 := ihC rest sub dp2 pkt key r (by omega) h
              rw [e1, hctl2]
        | nested acts =>
          simp only [dp_netdev_sample] at h
          have hs : sizeOf (SampleAttr.nested acts :: rest) =
              1 + (1 + sizeOf acts) + sizeOf rest := by simp
          have hsome : sizeOf (some acts : Option (List NlAction)) = 1 + sizeOf acts := by simp
          have hsub : 1 ≤ sizeOf sub := by cases sub <;> simp
          exact ihC rest (some acts) dp pkt key r (by omega) h

theorem execute_actions_ctl (dp : DP) (pkt : Packet) (key : FlowKey)
    (acts : List NlAction) (r : DP × Packet)
    (h : dp_netdev_execute_actions dp pkt key acts = some r) : ctl r.1 = ctl dp :=
  (exec_preserves (2 * sizeOf acts)).1 acts dp pkt key r (Nat.le_refl _) h

theorem find?_range'_some (p : Nat → Bool) (a n i : Nat)
    (h : (List.range' a n).find? p = some i) :
    a ≤ i ∧ i < a + n ∧ p i = true ∧ ∀ j, a ≤ j → j < i → p j = false := by
  induction n generalizing a with
  | zero => simp at h
  | succ n ih =>
    rw [List.range'_succ] at h
    by_cases hp : p a
    · rw [List.find?_cons_of_pos _ hp] at h
      obtain rfl : a = i := by injection h
      exact ⟨Nat.le_refl a, by omega, hp,
        fun j h1 h2 => absurd (Nat.lt_of_le_of_lt h1 h2) (Nat.lt_irrefl a)⟩
    · rw [List.find?_cons_of_neg _ hp] at h
      obtain ⟨h1, h2, h3, h4⟩ := ih (a + 1) h
      refine ⟨by omega, by omega, h3, ?_⟩
      intro j hj1 hj2
      rcases Nat.eq_or_lt_of_le hj1 with rfl | hlt
      · exact Bool.of_not_eq_true hp
      · exact h4 j hlt hj2

theorem find?_range'_none (p : Nat → Bool) (a n : Nat)
    (h : (List.range' a n).find? p = none) :
    ∀ j, a ≤ j → j < a + n → p j = false := by
  intro j h1 h2
  have := List.find?_eq_none.mp h j (List.mem_range'_1.mpr ⟨h1, h2⟩)
  exact Bool.of_not_eq_true this

theorem bigTable_length : bigTable.length = MAX_FLOWS := by
  rw [bigTable, List.length_map, List.length_range]

theorem bigDP_lookup_none : dp_netdev_lookup_flow bigDP keyNew = none := by
  rw [lookup_eq_none_iff]
  intro f hf
  simp only [bigDP] at hf
  rw [bigTable, List.mem_map] at hf
  obtain ⟨i, hi, rfl⟩ := hf
  rw [List.mem_range] at hi
  intro hcontra
  simp only [flowOfIdx, newFlow, keyNew, FlowKey.mk.injEq] at hcontra
  omega

theorem bigDP_table_eq_cons :
    bigDP.flow_table = flowOfIdx 0 :: (List.range (MAX_FLOWS - 1)).map (flowOfIdx ∘ Nat.succ) := by
  simp only [bigDP]
  rw [bigTable, show MAX_FLOWS = (MAX_FLOWS - 1) + 1 from rfl, List.range_succ_eq_map,
    List.map_cons, List.map_map]
  rw [show MAX_FLOWS - 1 + 1 - 1 = MAX_FLOWS - 1 from rfl]

theorem bigDP_lookup_zero :
    dp_netdev_lookup_flow bigDP { in_port := 0, l234 := 0 } = some (flowOfIdx 0) := by
  unfold dp_netdev_lookup_flow
  rw [bigDP_table_eq_cons, List.find?_cons_of_pos]
  simp [flowOfIdx, newFlow]

theorem getQueue_zero (dp : DP) : dp.getQueue 0 = dp.queues_miss := rfl

theorem getQueue_one (dp : DP) : dp.getQueue 1 = dp.queues_action := rfl

theorem setQueue_zero (dp : DP) (q : Queue) :
    dp.setQueue 0 q = { dp with queues_miss := q } := rfl

theorem setQueue_one (dp : DP) (q : Queue) :
    dp.setQueue 1 q = { dp with queues_action := q } := rfl

theorem bswap64_halves_lt (x : Nat) :
    bswap32 (x % U32) < U32 ∧ bswap32 (x / U32) < U32 :=
  ⟨bswap32_lt _, bswap32_lt _⟩

theorem bswap64_bswap64 (x : Nat) (h : x < U64) : bswap64 (bswap64 x) = x := by
  have hU : U32 * U32 = U64 := rfl
  have hA : bswap32 (x % U32) < U32 := bswap32_lt _
  have hB : bswap32 (x / U32) < U32 := bswap32_lt _
  have hU32pos : 0 < U32 := by unfold U32; omega
  have e1 : (bswap32 (x % U32) * U32 + bswap32 (x / U32)) % U32 = bswap32 (x / U32) := by
    unfold U32 at hA hB ⊢
    omega
  have e2 : (bswap32 (x % U32) * U32 + bswap32 (x / U32)) / U32 = bswap32 (x % U32) := by
    unfold U32 at hA hB ⊢
    omega
  have hdiv : x / U32 < U32 := by
    unfold U64 at h
    unfold U32 at hA hB ⊢
    omega
  rw [bswap64, bswap64, e1, e2,
    bswap32_bswap32 (x / U32) hdiv,
    bswap32_bswap32 (x % U32) (Nat.mod_lt x hU32pos)]
  unfold U32
  omega

/-- C10: dpif_netdev_execute returns EINVAL, runs no actions, and leaves
the datapath unchanged whenever the supplied packet is shorter than an
Ethernet header or larger than 65535 bytes. -/
theorem execute_size_guard (dp : DP) (pkt : Packet) (key : FlowKey)
    (acts : List NlAction)
    (h : pkt.size < ETH_HEADER_LEN ∨ UINT16_MAX < pkt.size) :
    dpif_netdev_execute dp pkt key acts = (EINVAL, some dp) := by
  unfold dpif_netdev_execute
  rw [if_pos h]

/-- C10 witness: a 13-byte packet is rejected with EINVAL and the
datapath is untouched. -/
theorem execute_size_guard_witness :
    ((13 : Nat) < ETH_HEADER_LEN ∨ UINT16_MAX < (13 : Nat)) ∧
    dpif_netdev_execute DP0 { size := 13, l234 := 0, tcpFlags := 0, hdr := [] } keyW [] =
      (EINVAL, some DP0) :=
  ⟨Or.inl (by decide),
    execute_size_guard DP0 { size := 13, l234 := 0, tcpFlags := 0, hdr := [] } keyW []
      (Or.inl (by decide))⟩

/-- C5: the code evaluated at the failing input. An OUTPUT to a present
in-range port transmits, an OUTPUT to an absent in-range slot silently
drops, but an OUTPUT to port MAX_PORTS = 256 reads past the end of the
256-slot ports array (undefined behavior, modelled as none), both at the
dp_netdev_output_port level and through dp_netdev_execute_actions. -/
theorem output_port_oob_eval :
    dp_netdev_output_port dpPorts pkt14 2 =
      some { dpPorts with ports := dpPorts.ports.set 2 (some { portObj 2 with sent := [pkt14] }) } ∧
    dp_netdev_output_port dpPorts pkt14 7 = some dpPorts ∧
    dp_netdev_output_port dpPorts pkt14 MAX_PORTS = none ∧
    dp_netdev_execute_actions dpPorts pkt14 keyW [.output MAX_PORTS] = none := by
  refine ⟨rfl, rfl, rfl, ?_⟩
  simp only [dp_netdev_execute_actions, execute_action]
  rfl

theorem apply_port_op_serial (dp : DP) (op : PortOp) :
    ((apply_port_op dp op).2).serial =
      (if (apply_port_op dp op).1 = 0 then dp.serial + 1 else dp.serial) := by
  cases op with
  | add devname port_nop =>
    cases port_nop with
    | none =>
      cases hc : choose_port dp devname with
      | some p => simp [apply_port_op, dpif_netdev_port_add, hc, do_add_port]
      | none => simp [apply_port_op, dpif_netdev_port_add, hc, EFBIG]
    | some n =>
      by_cases h1 : n ≥ MAX_PORTS
      · simp [apply_port_op, dpif_netdev_port_add, h1, EFBIG]
      · by_cases h2 : port_free dp n
        · simp [apply_port_op, dpif_netdev_port_add, h1, h2, do_add_port]
        · simp [apply_port_op, dpif_netdev_port_add, h1, h2, EBUSY]
  | del port_no =>
    by_cases h0 : port_no = OVSP_LOCAL
    · simp [apply_port_op, dpif_netdev_port_del, h0, EINVAL]
    · by_cases h1 : port_no < MAX_PORTS
      · cases hp : dp.ports.getD port_no none with
        | some port =>
          simp only [apply_port_op, dpif_netdev_port_del, do_del_port]
          rw [if_neg h0, if_pos h1, hp]
          simp
        | none =>
          simp only [apply_port_op, dpif_netdev_port_del, do_del_port]
          rw [if_neg h0, if_pos h1, hp]
          simp [ENOENT]
      · simp [apply_port_op, dpif_netdev_port_del, do_del_port, h0, h1, EINVAL]

theorem run_port_ops_serial (dp : DP) (ops : List PortOp) :
    (run_port_ops dp ops).serial = dp.serial + count_port_ok dp ops := by
  induction ops generalizing dp with
  | nil => simp [run_port_ops, count_port_ok]
  | cons op rest ih =>
    rw [run_port_ops, count_port_ok]
    rw [ih]
    rw [apply_port_op_serial dp op]
    by_cases h : (apply_port_op dp op).1 = 0
    · rw [if_pos h, if_pos h]
      omega
    · rw [if_neg h, if_neg h]
      omega

/-- C8: dp.serial strictly increases across every successful port_add
and port_del (it is bumped by exactly one on success and unchanged on
failure), so over any mutation sequence it grows by exactly the number
of successful mutations. -/
theorem serial_monotonic_spec :
    (∀ (dp : DP) (op : PortOp),
      ((apply_port_op dp op).2).serial =
        (if (apply_port_op dp op).1 = 0 then dp.serial + 1 else dp.serial)) ∧
    (∀ (dp : DP) (ops : List PortOp),
      (run_port_ops dp ops).serial = dp.serial + count_port_ok dp ops) :=
  ⟨apply_port_op_serial, run_port_ops_serial⟩

/-- C9: GRE64 encapsulation puts the low 32 bits of the 64-bit tun_id on
the wire as the GRE key and the high 32 bits as the GRE sequence, the
receive dispatch selects the GRE64 vport when both KEY and SEQ are
present, and recomposition by gre_rcv restores the original tun_id, on
big- and little-endian hosts alike (including a receiver of either
endianness reading the wire values). `n` is the network-order (wire)
value of the 64-bit tun_id. -/
theorem gre64_tun_id_wire_spec (e er : Endian) (tf : TnlFlags) (n : Nat)
    (hn : n < U64) :
    netOfHost32 e (gre64_build_tpi e tf (hostOfNet64 e n)).key = n % U32 ∧
    netOfHost32 e (gre64_build_tpi e tf (hostOfNet64 e n)).seq = n / U32 ∧
    gre_rcv_tun_id e (gre64_build_tpi e tf (hostOfNet64 e n)) = hostOfNet64 e n ∧
    netOfHost64 e (gre_rcv_tun_id e (gre64_build_tpi e tf (hostOfNet64 e n))) = n ∧
    (tf.key = true → gre_rcv_is_gre64 (gre64_build_tpi e tf (hostOfNet64 e n)).flags = true) ∧
    netOfHost64 er (key_to_tunnel_id er (hostOfNet32 er (n % U32)) (hostOfNet32 er (n / U32))) = n := by
  have hU32pos : 0 < U32 := by unfold U32; omega
  have hlo : n % U32 < U32 := Nat.mod_lt n hU32pos
  have hhi : n / U32 < U32 := by
    unfold U64 at hn
    unfold U32 at *
    omega
  have hflag : ∀ (ee : Endian), tf.key = true →
      gre_rcv_is_gre64 (gre64_build_tpi ee tf (hostOfNet64 ee n)).flags = true := by
    intro ee hk
    simp [gre64_build_tpi, gre_rcv_is_gre64, filter_tnl_flags, hk]
  have hrecv : netOfHost64 er (key_to_tunnel_id er (hostOfNet32 er (n % U32))
      (hostOfNet32 er (n / U32))) = n := by
    cases er with
    | big =>
      simp only [netOfHost64, key_to_tunnel_id, hostOfNet32]
      unfold U64 at hn
      unfold U32 at *
      omega
    | little =>
      simp only [netOfHost64, key_to_tunnel_id, hostOfNet32]
      rw [Nat.mod_eq_of_lt (bswap32_lt (n % U32)), Nat.mod_eq_of_lt (bswap32_lt (n / U32))]
      rw [show bswap32 (n % U32) * U32 + bswap32 (n / U32) = bswap64 n from rfl]
      exact bswap64_bswap64 n hn
  cases e with
  | big =>
    refine ⟨?_, ?_, ?_, ?_, hflag Endian.big, hrecv⟩
    · simp only [netOfHost32, gre64_build_tpi, be64_get_low32, hostOfNet64]
    · simp only [netOfHost32, gre64_build_tpi, be64_get_high32, hostOfNet64]
      unfold U64 at hn
      unfold U32 at *
      omega
    · simp only [gre_rcv_tun_id, gre64_build_tpi, key_to_tunnel_id, be64_get_low32,
        be64_get_high32, hostOfNet64]
      unfold U64 at hn
      unfold U32 at *
      omega
    · simp only [netOfHost64, gre_rcv_tun_id, gre64_build_tpi, key_to_tunnel_id,
        be64_get_low32, be64_get_high32, hostOfNet64]
      unfold U64 at hn
      unfold U32 at *
      omega
  | little =>
    have hb64 : hostOfNet64 Endian.little n = bswap32 (n % U32) * U32 + bswap32 (n / U32) := rfl
    have hA : bswap32 (n % U32) < U32 := bswap32_lt _
    have hB : bswap32 (n / U32) < U32 := bswap32_lt _
    have hkey : (gre64_build_tpi Endian.little tf (hostOfNet64 Endian.little n)).key =
        bswap32 (n % U32) := by
      simp only [gre64_build_tpi, be64_get_low32, hb64]
      unfold U32 at hA hB ⊢
      omega
    have hseq : (gre64_build_tpi Endian.little tf (hostOfNet64 Endian.little n)).seq =
        bswap32 (n / U32) := by
      simp only [gre64_build_tpi, be64_get_high32, hb64]
      unfold U32 at hA hB ⊢
      omega
    refine ⟨?_, ?_, ?_, ?_, hflag Endian.little, hrecv⟩
    · rw [hkey]
      simp only [netOfHost32]
      exact bswap32_bswap32 (n % U32) hlo
    · rw [hseq]
      simp only [netOfHost32]
      exact bswap32_bswap32 (n / U32) hhi
    · simp only [gre_rcv_tun_id, key_to_tunnel_id]
      rw [hkey, hseq]
      rw [Nat.mod_eq_of_lt hA, Nat.mod_eq_of_lt hB]
      exact hb64.symm
    · simp only [gre_rcv_tun_id, key_to_tunnel_id]
      rw [hkey, hseq]
      rw [Nat.mod_eq_of_lt hA, Nat.mod_eq_of_lt hB]
      simp only [netOfHost64]
      rw [show bswap32 (n % U32) * U32 + bswap32 (n / U32) = bswap64 n from rfl]
      exact bswap64_bswap64 n hn

/-- C9 witness: the S5 tunnel id 0x00000001_00000002 round-trips from a
little-endian sender through the wire (key 2, sequence 1) to a
big-endian receiver. -/
theorem gre64_tun_id_wire_spec_witness :
    (4294967298 : Nat) < U64 ∧
    netOfHost32 Endian.little
      (gre64_build_tpi Endian.little
        { csum := false, key := true, seq := false, dont_fragment := false }
        (hostOfNet64 Endian.little 4294967298)).key = 4294967298 % U32 ∧
    netOfHost64 Endian.big (key_to_tunnel_id Endian.big
      (hostOfNet32 Endian.big (4294967298 % U32))
      (hostOfNet32 Endian.big (4294967298 / U32))) = 4294967298 := by
  have h := gre64_tun_id_wire_spec Endian.little Endian.big
    { csum := false, key := true, seq := false, dont_fragment := false }
    4294967298 (by decide)
  exact ⟨by decide, h.1, h.2.2.2.2.2⟩

/-- C2: dp_netdev_output_userspace fails with ENOBUFS exactly when
head - tail (unsigned) is MAX_QUEUE_LEN, and then bumps n_lost by one
leaving every queue's head, tail and slots unchanged; dpif_netdev_recv
returns EAGAIN exactly when both queues are empty and otherwise
dequeues from the first nonempty queue in the order MISS, ACTION.
The hypothesis is the ring invariant head - tail <= MAX_QUEUE_LEN of
reachable states. -/
theorem upcall_queue_spec (dp : DP) (pkt : Packet) (i : Fin 2) (k : FlowKey)
    (ud : Option Nat) (hb : queue_len (dp.getQueue i) ≤ MAX_QUEUE_LEN) :
    ((dp_netdev_output_userspace dp pkt i k ud).1 = ENOBUFS ↔
      queue_len (dp.getQueue i) = MAX_QUEUE_LEN) ∧
    (queue_len (dp.getQueue i) = MAX_QUEUE_LEN →
      dp_netdev_output_userspace dp pkt i k ud =
        (ENOBUFS, { dp with n_lost := dp.n_lost + 1 })) ∧
    ((dpif_netdev_recv dp).1 = EAGAIN ↔
      dp.queues_miss.head = dp.queues_miss.tail ∧
      dp.queues_action.head = dp.queues_action.tail) ∧
    (dp.queues_miss.head ≠ dp.queues_miss.tail →
      dpif_netdev_recv dp = (0,
        some (dp.queues_miss.upcalls.getD (dp.queues_miss.tail % MAX_QUEUE_LEN) default),
        { dp with queues_miss := { dp.queues_miss with tail := (dp.queues_miss.tail + 1) % U32 } })) ∧
    (dp.queues_miss.head = dp.queues_miss.tail →
      dp.queues_action.head ≠ dp.queues_action.tail →
      dpif_netdev_recv dp = (0,
        some (dp.queues_action.upcalls.getD (dp.queues_action.tail % MAX_QUEUE_LEN) default),
        { dp with queues_action := { dp.queues_action with tail := (dp.queues_action.tail + 1) % U32 } })) := by
  refine ⟨?_, ?_, ?_, ?_, ?_⟩
  · by_cases hlt : queue_len (dp.getQueue i) < MAX_QUEUE_LEN
    · unfold dp_netdev_output_userspace
      dsimp only
      rw [if_pos hlt]
      constructor
      · intro h0
        simp [ENOBUFS] at h0
      · intro heq
        rw [heq] at hlt
        exact absurd hlt (Nat.lt_irrefl _)
    · unfold dp_netdev_output_userspace
      dsimp only
      rw [if_neg hlt]
      exact iff_of_true rfl (Nat.le_antisymm hb (Nat.le_of_not_lt hlt))
  · intro heq
    have hnlt : ¬ queue_len (dp.getQueue i) < MAX_QUEUE_LEN := by
      rw [heq]
      exact Nat.lt_irrefl _
    unfold dp_netdev_output_userspace
    dsimp only
    rw [if_neg hnlt]
  · unfold dpif_netdev_recv find_nonempty_queue
    rw [getQueue_zero, getQueue_one]
    by_cases h0 : dp.queues_miss.head = dp.queues_miss.tail
    · rw [if_neg (not_not_intro h0)]
      by_cases h1 : dp.queues_action.head = dp.queues_action.tail
      · rw [if_neg (not_not_intro h1)]
        exact iff_of_true rfl ⟨h0, h1⟩
      · rw [if_pos h1]
        exact iff_of_false (by simp [EAGAIN]) (fun hc => h1 hc.2)
    · rw [if_pos h0]
      exact iff_of_false (by simp [EAGAIN]) (fun hc => h0 hc.1)
  · intro h0
    unfold dpif_netdev_recv find_nonempty_queue
    rw [getQueue_zero, getQueue_one, if_pos h0]
    dsimp only
    rw [getQueue_zero, setQueue_zero]
  · intro h0 h1
    unfold dpif_netdev_recv find_nonempty_queue
    rw [getQueue_zero, getQueue_one, if_neg (not_not_intro h0), if_pos h1]
    dsimp only
    rw [getQueue_one, setQueue_one]

/-- C2 witness: on a datapath whose MISS queue is full the invariant
holds, the length equals MAX_QUEUE_LEN, and a push fails with ENOBUFS
bumping only n_lost. -/
theorem upcall_queue_spec_witness :
    queue_len (dpFullMiss.getQueue 0) ≤ MAX_QUEUE_LEN ∧
    queue_len (dpFullMiss.getQueue 0) = MAX_QUEUE_LEN ∧
    dp_netdev_output_userspace dpFullMiss pkt14 0 keyW none =
      (ENOBUFS, { dpFullMiss with n_lost := dpFullMiss.n_lost + 1 }) := by
  have h := upcall_queue_spec dpFullMiss pkt14 0 keyW none (by decide)
  exact ⟨by decide, by decide, h.2.1 (by decide)⟩

/-- C6: counterexample to "one NO_BUFFER for each mutation". Two
successful port_add mutations occur while the client holds its original
cached serial, yet the client's first port_poll returns ENOBUFS and its
second returns EAGAIN: the two mutations are coalesced into a single
NO_BUFFER report. -/
theorem port_poll_coalesce_cex :
    (dpif_netdev_port_add DP0 [] (some 5)).1 = 0 ∧
    (dpif_netdev_port_add dp6a [] (some 6)).1 = 0 ∧
    dp6b.serial = DP0.serial + 2 ∧
    dpif_netdev_port_poll (create_dpif_netdev DP0) dp6b =
      (ENOBUFS, { dp_serial := dp6b.serial }) ∧
    dpif_netdev_port_poll { dp_serial := dp6b.serial } dp6b =
      (EAGAIN, { dp_serial := dp6b.serial }) :=
  ⟨rfl, rfl, rfl, rfl, rfl⟩

/-- C6 (amended): dpif_netdev_port_poll returns ENOBUFS exactly when the
client's cached dp_serial differs from the datapath's serial, resyncing
the cache so an immediate second poll returns EAGAIN; multiple
mutations between polls are therefore coalesced into one NO_BUFFER, and
RETRY is returned whenever the cached serial equals the datapath's. -/
theorem port_poll_spec (c : DpifClient) (dp : DP) :
    (c.dp_serial ≠ dp.serial →
      dpif_netdev_port_poll c dp = (ENOBUFS, { dp_serial := dp.serial })) ∧
    (c.dp_serial = dp.serial → dpif_netdev_port_poll c dp = (EAGAIN, c)) ∧
    (∀ e c', dpif_netdev_port_poll c dp = (e, c') → e = ENOBUFS →
      dpif_netdev_port_poll c' dp = (EAGAIN, c')) := by
  refine ⟨?_, ?_, ?_⟩
  · intro h
    unfold dpif_netdev_port_poll
    rw [if_pos h]
  · intro h
    unfold dpif_netdev_port_poll
    rw [if_neg (not_not_intro h)]
  · intro e c' hpoll he
    unfold dpif_netdev_port_poll at hpoll ⊢
    by_cases h : c.dp_serial ≠ dp.serial
    · rw [if_pos h] at hpoll
      cases hpoll
      rw [if_neg (not_not_intro rfl)]
    · rw [if_neg h] at hpoll
      cases hpoll
      exact absurd he (by decide)

/-- C6 witness: a client whose cached serial 0 differs from the
datapath serial 1 receives ENOBUFS with its cache resynced. -/
theorem port_poll_spec_witness :
    (({ dp_serial := 0 } : DpifClient).dp_serial ≠ ({ DP0 with serial := 1 } : DP).serial) ∧
    dpif_netdev_port_poll { dp_serial := 0 } { DP0 with serial := 1 } =
      (ENOBUFS, { dp_serial := ({ DP0 with serial := 1 } : DP).serial }) :=
  ⟨by decide, (port_poll_spec { dp_serial := 0 } { DP0 with serial := 1 }).1 (by decide)⟩

/-- C4: counterexample to "with P = 2^32 - 1 the nested actions execute
for every frame". On the uniform draw 2^32 - 1 the source's test
random_uint32() >= probability skips the nested actions, so the frame
reaches port 3 but not port 2 in the S6 configuration. -/
theorem sample_maxprob_skips_cex :
    dpMaxDraw.rng = [U32 - 1] ∧
    dp_netdev_execute_actions dpMaxDraw pkt14 keyW actsSample = some (dpMaxRes, pkt14) ∧
    portSent dpMaxRes 2 = [] ∧
    portSent dpMaxRes 3 = [pkt14] := by
  refine ⟨rfl, ?_, rfl, rfl⟩
  simp only [actsSample, dp_netdev_execute_actions, execute_action, dp_netdev_sample,
    random_uint32, dpMaxDraw]
  rfl

/-- C4 (amended): a SAMPLE with PROBABILITY P and nested ACTIONS runs
the nested actions exactly when the uniform 32-bit draw is strictly
below P, i.e. for P of the 2^32 equally likely draws (probability
P / 2^32); with P = 0 the nested actions never execute; with
P = 2^32 - 1 they are skipped exactly on the draw 2^32 - 1. -/
theorem sample_probability_spec (dp : DP) (pkt : Packet) (key : FlowKey)
    (P : Nat) (A : List NlAction) (d : Nat) (tl : List Nat)
    (hrng : dp.rng = d :: tl) :
    (d < P → execute_action dp pkt key (.sample [.probability P, .nested A]) =
      dp_netdev_execute_actions { dp with rng := tl } pkt key A) ∧
    (P ≤ d → execute_action dp pkt key (.sample [.probability P, .nested A]) =
      some ({ dp with rng := tl }, pkt)) ∧
    (P = 0 → execute_action dp pkt key (.sample [.probability P, .nested A]) =
      some ({ dp with rng := tl }, pkt)) ∧
    ((Finset.range U32).filter (fun r => r < P)).card = min P U32 := by
  have hcard : ((Finset.range U32).filter (fun r => r < P)).card = min P U32 := by
    have : (Finset.range U32).filter (fun r => r < P) = Finset.range (min P U32) := by
      ext x
      simp only [Finset.mem_filter, Finset.mem_range]
      omega
    rw [this, Finset.card_range]
  have h2 : P ≤ d → execute_action dp pkt key (.sample [.probability P, .nested A]) =
      some ({ dp with rng := tl }, pkt) := by
    intro hge
    simp only [execute_action, dp_netdev_sample, random_uint32, hrng, ge_iff_le, if_pos hge]
  refine ⟨?_, h2, fun hP => h2 (by omega), hcard⟩
  intro hlt
  have hne : ¬ P ≤ d := Nat.not_le.mpr hlt
  simp only [execute_action, dp_netdev_sample, random_uint32, hrng, ge_iff_le, if_neg hne]

/-- C4 witness: with the draw 5 and probability 10 the nested actions
are executed on the post-draw state. -/
theorem sample_probability_spec_witness :
    dpWithDraw.rng = 5 :: [] ∧
    (5 : Nat) < 10 ∧
    execute_action dpWithDraw pkt14 keyW (.sample [.probability 10, .nested []]) =
      dp_netdev_execute_actions { dpWithDraw with rng := [] } pkt14 keyW [] :=
  ⟨rfl, by decide,
    (sample_probability_spec dpWithDraw pkt14 keyW 10 [] 5 [] rfl).1 (by decide)⟩

/-- C1 (amended): dp_netdev_port_input. A frame shorter than an
Ethernet header is dropped with no state change. On a hit whose action
execution completes: the actions run from the stats-updated state,
exactly one increment of n_hit occurs (the engine preserves n_hit and
n_missed), and the flow's entry afterwards carries packet_count + 1,
byte_count + size, tcp_flags OR observed flags, and used = the current
monotonic milliseconds. On a miss n_missed is incremented by one and a
MISS upcall is enqueued when the MISS queue is not full; when it is
full, n_lost is incremented and the packet dropped with the queue
unchanged. -/
theorem port_input_spec (dp : DP) (port_no : Nat) (pkt : Packet) :
    (pkt.size < ETH_HEADER_LEN → dp_netdev_port_input dp port_no pkt = some dp) ∧
    (ETH_HEADER_LEN ≤ pkt.size →
      ∀ flow, dp_netdev_lookup_flow dp (flow_extract pkt port_no) = some flow →
        ∀ dp2 pkt2,
          dp_netdev_execute_actions (hit_state dp (flow_extract pkt port_no) flow pkt) pkt
              (flow_extract pkt port_no) flow.actions = some (dp2, pkt2) →
          dp_netdev_port_input dp port_no pkt = some { dp2 with n_hit := dp2.n_hit + 1 } ∧
          dp2.n_hit = dp.n_hit ∧
          dp2.n_missed = dp.n_missed ∧
          dp_netdev_lookup_flow dp2 (flow_extract pkt port_no) =
            some (dp_netdev_flow_used flow dp.now pkt) ∧
          (dp_netdev_flow_used flow dp.now pkt).packet_count = flow.packet_count + 1 ∧
          (dp_netdev_flow_used flow dp.now pkt).byte_count = flow.byte_count + pkt.size ∧
          (dp_netdev_flow_used flow dp.now pkt).tcp_flags = Nat.lor flow.tcp_flags pkt.tcpFlags ∧
          (dp_netdev_flow_used flow dp.now pkt).used = dp.now) ∧
    (ETH_HEADER_LEN ≤ pkt.size →
      dp_netdev_lookup_flow dp (flow_extract pkt port_no) = none →
        dp_netdev_port_input dp port_no pkt =
          some (dp_netdev_output_userspace { dp with n_missed := dp.n_missed + 1 } pkt
            DPIF_UC_MISS (flow_extract pkt port_no) none).2 ∧
        (queue_len dp.queues_miss < MAX_QUEUE_LEN →
          dp_netdev_port_input dp port_no pkt = some
            { dp with
              n_missed := dp.n_missed + 1,
              queues_miss :=
                { upcalls := dp.queues_miss.upcalls.set (dp.queues_miss.head % MAX_QUEUE_LEN)
                    { type := 0, key := flow_extract pkt port_no, userdata := none, packet := pkt },
                  head := (dp.queues_miss.head + 1) % U32,
                  tail := dp.queues_miss.tail } }) ∧
        (MAX_QUEUE_LEN ≤ queue_len dp.queues_miss →
          dp_netdev_port_input dp port_no pkt =
            some { dp with n_missed := dp.n_missed + 1, n_lost := dp.n_lost + 1 })) := by
  refine ⟨?_, ?_, ?_⟩
  · intro h
    unfold dp_netdev_port_input
    rw [if_pos h]
  · intro hs flow hlook dp2 pkt2 heng
    have hkey : flow.key = flow_extract pkt port_no := lookup_some_key dp _ flow hlook
    have heq : dp_netdev_port_input dp port_no pkt = some { dp2 with n_hit := dp2.n_hit + 1 } := by
      unfold dp_netdev_port_input
      rw [if_neg (Nat.not_lt.mpr hs)]
      dsimp only
      rw [hlook]
      dsimp only
      unfold hit_state at heng
      rw [heng]
    have hctl : ctl dp2 = ctl (hit_state dp (flow_extract pkt port_no) flow pkt) :=
      execute_actions_ctl _ pkt _ flow.actions (dp2, pkt2) heng
    simp only [ctl, hit_state, Prod.mk.injEq] at hctl
    obtain ⟨hft, hnh, hnm⟩ := hctl
    refine ⟨heq, hnh, hnm, ?_, rfl, rfl, rfl, rfl⟩
    show dp2.flow_table.find? _ = _
    rw [hft]
    exact find?_update_flow dp.flow_table (flow_extract pkt port_no) flow
      (dp_netdev_flow_used flow dp.now pkt) hlook hkey
  · intro hs hlook
    have eA : dp_netdev_port_input dp port_no pkt =
        some (dp_netdev_output_userspace { dp with n_missed := dp.n_missed + 1 } pkt
          DPIF_UC_MISS (flow_extract pkt port_no) none).2 := by
      unfold dp_netdev_port_input
      rw [if_neg (Nat.not_lt.mpr hs)]
      dsimp only
      rw [hlook]
    refine ⟨eA, ?_, ?_⟩
    · intro hql
      rw [eA]
      unfold dp_netdev_output_userspace
      simp only [DPIF_UC_MISS, getQueue_zero, setQueue_zero]
      rw [if_pos (show queue_len ({ dp with n_missed := dp.n_missed + 1 } : DP).queues_miss <
        MAX_QUEUE_LEN from hql)]
      rfl
    · intro hnql
      rw [eA]
      unfold dp_netdev_output_userspace
      simp only [DPIF_UC_MISS, getQueue_zero, setQueue_zero]
      rw [if_neg (show ¬ queue_len ({ dp with n_missed := dp.n_missed + 1 } : DP).queues_miss <
        MAX_QUEUE_LEN from Nat.not_lt.mpr hnql)]

/-- C1 witness: a 20-byte frame on port 1 hits flowW (whose action list
is empty, so the engine completes immediately) and port_input returns
the hit-updated state with n_hit incremented. -/
theorem port_input_spec_witness :
    ETH_HEADER_LEN ≤ pktW.size ∧
    dp_netdev_lookup_flow dpW (flow_extract pktW 1) = some flowW ∧
    dp_netdev_port_input dpW 1 pktW =
      some { hit_state dpW (flow_extract pktW 1) flowW pktW with
        n_hit := (hit_state dpW (flow_extract pktW 1) flowW pktW).n_hit + 1 } := by
  have hs : ETH_HEADER_LEN ≤ pktW.size := by decide
  have hl : dp_netdev_lookup_flow dpW (flow_extract pktW 1) = some flowW := rfl
  have he : dp_netdev_execute_actions (hit_state dpW (flow_extract pktW 1) flowW pktW) pktW
      (flow_extract pktW 1) flowW.actions =
      some (hit_state dpW (flow_extract pktW 1) flowW pktW, pktW) := by
    show dp_netdev_execute_actions _ _ _ [] = _
    simp only [dp_netdev_execute_actions]
  obtain ⟨e1, _⟩ := (port_input_spec dpW 1 pktW).2.1 hs flowW hl
    (hit_state dpW (flow_extract pktW 1) flowW pktW) pktW he
  exact ⟨hs, hl, e1⟩

/-- C1: counterexample to the unconditional "an upcall of class MISS is
enqueued" on a miss. With the MISS queue full, a missed 14-byte frame
increments n_missed and n_lost but the MISS queue (head, tail, slots)
is unchanged: no upcall is enqueued. -/
theorem port_input_full_queue_cex :
    queue_len dpFullMiss.queues_miss = MAX_QUEUE_LEN ∧
    dp_netdev_port_input dpFullMiss 1 pkt14 =
      some { dpFullMiss with n_missed := 1, n_lost := 1 } ∧
    ({ dpFullMiss with n_missed := 1, n_lost := 1 } : DP).queues_miss =
      dpFullMiss.queues_miss :=
  ⟨by decide, rfl, rfl⟩

theorem flow_put_create_eq (dp : DP) (k : FlowKey) (acts : List NlAction)
    (hv : flowKeyValid k = true) (habs : dp_netdev_lookup_flow dp k = none)
    (hlen : dp.flow_table.length < MAX_FLOWS) :
    dpif_netdev_flow_put dp
        { key := k, create := true, modify := false, zero_stats := false, actions := acts } =
      (0, { dp with flow_table := dp.flow_table ++ [newFlow k acts] }) := by
  unfold dpif_netdev_flow_put
  dsimp only
  rw [if_pos hv, habs]
  dsimp only
  rw [if_pos rfl, if_pos hlen]
  rfl

theorem flow_put_create_full (dp : DP) (k : FlowKey) (acts : List NlAction)
    (hv : flowKeyValid k = true) (habs : dp_netdev_lookup_flow dp k = none)
    (hlen : dp.flow_table.length = MAX_FLOWS) :
    dpif_netdev_flow_put dp
        { key := k, create := true, modify := false, zero_stats := false, actions := acts } =
      (EFBIG, dp) := by
  unfold dpif_netdev_flow_put
  dsimp only
  rw [if_pos hv, habs]
  dsimp only
  rw [if_pos rfl, if_neg (by rw [hlen]; exact Nat.lt_irrefl _)]

theorem flow_put_table_bound (dp : DP) (put : FlowPut)
    (hlen : dp.flow_table.length ≤ MAX_FLOWS) :
    ((dpif_netdev_flow_put dp put).2).flow_table.length ≤ MAX_FLOWS := by
  unfold dpif_netdev_flow_put
  by_cases hv : flowKeyValid put.key
  · rw [if_pos hv]
    cases hl : dp_netdev_lookup_flow dp put.key with
    | none =>
      dsimp only
      by_cases hc : put.create = true
      · rw [if_pos hc]
        by_cases h2 : dp.flow_table.length < MAX_FLOWS
        · rw [if_pos h2]
          unfold dp_netdev_flow_add
          dsimp only
          rw [List.length_append]
          simp only [List.length_cons, List.length_nil]
          omega
        · rw [if_neg h2]
          exact hlen
      · rw [if_neg hc]
        exact hlen
    | some flow =>
      dsimp only
      by_cases hm : put.modify = true
      · rw [if_pos hm]
        dsimp only
        rw [update_flow_length]
        exact hlen
      · rw [if_neg hm]
        exact hlen
  · rw [if_neg hv]
    exact hlen

/-- C3: dpif_netdev_flow_put with CREATE on a well-formed absent key
inserts the (zero-stats) flow when the table holds fewer than MAX_FLOWS
entries and returns EFBIG leaving the table unchanged when it holds
MAX_FLOWS; every flow_put keeps the table within MAX_FLOWS; and after
flow_del removes one entry from a full table the next CREATE succeeds,
refilling the table to exactly MAX_FLOWS. -/
theorem flow_put_capacity_spec (dp : DP) (k : FlowKey) (acts : List NlAction)
    (hv : flowKeyValid k = true) (habs : dp_netdev_lookup_flow dp k = none) :
    (dp.flow_table.length < MAX_FLOWS →
      dpif_netdev_flow_put dp
          { key := k, create := true, modify := false, zero_stats := false, actions := acts } =
        (0, { dp with flow_table := dp.flow_table ++ [newFlow k acts] })) ∧
    (dp.flow_table.length = MAX_FLOWS →
      dpif_netdev_flow_put dp
          { key := k, create := true, modify := false, zero_stats := false, actions := acts } =
        (EFBIG, dp)) ∧
    (∀ put : FlowPut, dp.flow_table.length ≤ MAX_FLOWS →
      ((dpif_netdev_flow_put dp put).2).flow_table.length ≤ MAX_FLOWS) ∧
    (∀ (k' : FlowKey) (f' : Flow), dp.flow_table.length = MAX_FLOWS →
      flowKeyValid k' = true → dp_netdev_lookup_flow dp k' = some f' →
      (dpif_netdev_flow_del dp k').1 = 0 ∧
      ((dpif_netdev_flow_del dp k').2).flow_table.length + 1 = MAX_FLOWS ∧
      (dpif_netdev_flow_put ((dpif_netdev_flow_del dp k').2)
          { key := k, create := true, modify := false, zero_stats := false, actions := acts }).1 = 0 ∧
      ((dpif_netdev_flow_put ((dpif_netdev_flow_del dp k').2)
          { key := k, create := true, modify := false, zero_stats := false, actions := acts }).2).flow_table.length =
        MAX_FLOWS) := by
  refine ⟨flow_put_create_eq dp k acts hv habs, flow_put_create_full dp k acts hv habs,
    flow_put_table_bound dp, ?_⟩
  intro k' f' hfull hv' hlk'
  have hdel : dpif_netdev_flow_del dp k' =
      (0, { dp with flow_table := remove_flow dp.flow_table k' }) := by
    unfold dpif_netdev_flow_del
    rw [if_pos hv', hlk']
  have hlen' : (remove_flow dp.flow_table k').length + 1 = MAX_FLOWS := by
    rw [← hfull]
    exact remove_flow_length dp.flow_table k' f' hlk'
  have habs' : dp_netdev_lookup_flow { dp with flow_table := remove_flow dp.flow_table k' } k = none := by
    rw [lookup_eq_none_iff]
    intro f hf
    exact (lookup_eq_none_iff dp k).mp habs f (remove_flow_mem dp.flow_table k' f hf)
  have hlt : (remove_flow dp.flow_table k').length < MAX_FLOWS := by omega
  have hput := flow_put_create_eq { dp with flow_table := remove_flow dp.flow_table k' } k acts
    hv habs' hlt
  rw [hdel]
  refine ⟨rfl, hlen', ?_, ?_⟩
  · rw [hput]
  · rw [hput]
    dsimp only
    rw [List.length_append]
    simp only [List.length_cons, List.length_nil]
    omega

/-- C3 witness: on a datapath holding exactly MAX_FLOWS flows, CREATE of
a fresh valid key fails with EFBIG leaving the state unchanged; after
deleting one flow the same CREATE succeeds. -/
theorem flow_put_capacity_spec_witness :
    flowKeyValid keyNew = true ∧
    dp_netdev_lookup_flow bigDP keyNew = none ∧
    bigDP.flow_table.length = MAX_FLOWS ∧
    dpif_netdev_flow_put bigDP
        { key := keyNew, create := true, modify := false, zero_stats := false, actions := [] } =
      (EFBIG, bigDP) ∧
    (dpif_netdev_flow_del bigDP { in_port := 0, l234 := 0 }).1 = 0 ∧
    (dpif_netdev_flow_put ((dpif_netdev_flow_del bigDP { in_port := 0, l234 := 0 }).2)
        { key := keyNew, create := true, modify := false, zero_stats := false, actions := [] }).1 = 0 := by
  have hlen : bigDP.flow_table.length = MAX_FLOWS := by
    simp only [bigDP]
    exact bigTable_length
  have h := flow_put_capacity_spec bigDP keyNew [] (by decide) bigDP_lookup_none
  obtain ⟨hd, _hl, hput, _hput2⟩ :=
    h.2.2.2 { in_port := 0, l234 := 0 } (flowOfIdx 0) hlen (by decide) bigDP_lookup_zero
  exact ⟨by decide, bigDP_lookup_none, hlen, h.2.1 hlen, hd, hput⟩


/-- C7: dpif_netdev_port_add with an explicit number fails EFBIG at or
above MAX_PORTS and EBUSY on an occupied slot, and otherwise installs
at that number; with port_no = ANY the number follows choose_port: the
lowest free slot in [1, MAX_PORTS) for the default class (and
lowest_free_port is proved to return the least free slot); for a
non-default class a name starting with "br" offsets the digit-derived
number by 100, the number at the first digit is tried first, and
otherwise (no digits, or an unusable digit-derived number) the lowest
free slot is used; when no slot is free the add fails EFBIG. -/
theorem port_add_choose_port_spec (dp : DP) (name : List Char) :
    (∀ n, MAX_PORTS ≤ n →
      dpif_netdev_port_add dp name (some n) = (EFBIG, some n, dp)) ∧
    (∀ n, n < MAX_PORTS → port_free dp n = false →
      dpif_netdev_port_add dp name (some n) = (EBUSY, some n, dp)) ∧
    (∀ n, n < MAX_PORTS → port_free dp n = true →
      dpif_netdev_port_add dp name (some n) = (0, some n, (do_add_port dp name n).2)) ∧
    (dp.classIsDefault = true → choose_port dp name = lowest_free_port dp) ∧
    (∀ s, dp.classIsDefault = false → digitSuffix name = some s →
      ((0 < startNo name + strtol10 s ∧ startNo name + strtol10 s < MAX_PORTS ∧
          port_free dp (startNo name + strtol10 s) = true →
        choose_port dp name = some (startNo name + strtol10 s)) ∧
      (¬ (0 < startNo name + strtol10 s ∧ startNo name + strtol10 s < MAX_PORTS ∧
          port_free dp (startNo name + strtol10 s) = true) →
        choose_port dp name = lowest_free_port dp))) ∧
    (dp.classIsDefault = false → digitSuffix name = none →
      choose_port dp name = lowest_free_port dp) ∧
    (∀ i, lowest_free_port dp = some i →
      1 ≤ i ∧ i < MAX_PORTS ∧ port_free dp i = true ∧
      ∀ j, 1 ≤ j → j < i → port_free dp j = false) ∧
    (lowest_free_port dp = none →
      ∀ j, 1 ≤ j → j < MAX_PORTS → port_free dp j = false) ∧
    (∀ p, choose_port dp name = some p →
      dpif_netdev_port_add dp name none = (0, some p, (do_add_port dp name p).2)) ∧
    (choose_port dp name = none →
      dpif_netdev_port_add dp name none = (EFBIG, none, dp)) := by
  refine ⟨?_, ?_, ?_, ?_, ?_, ?_, ?_, ?_, ?_, ?_⟩
  · intro n hn
    unfold dpif_netdev_port_add
    dsimp only
    rw [if_pos hn]
  · intro n hn hocc
    unfold dpif_netdev_port_add
    dsimp only
    rw [if_neg (Nat.not_le.mpr hn), if_pos (by rw [hocc]; exact Bool.false_ne_true)]
  · intro n hn hfree
    unfold dpif_netdev_port_add
    dsimp only
    rw [if_neg (Nat.not_le.mpr hn), if_neg (by rw [hfree]; exact not_not_intro rfl)]
    rfl
  · intro hdef
    unfold choose_port
    rw [if_pos hdef]
  · intro s hdummy hds
    have hcp : choose_port dp name =
        (if 0 < startNo name + strtol10 s ∧ startNo name + strtol10 s < MAX_PORTS ∧
            port_free dp (startNo name + strtol10 s) then
          some (startNo name + strtol10 s)
        else lowest_free_port dp) := by
      unfold choose_port
      rw [if_neg (by rw [hdummy]; exact Bool.false_ne_true), hds]
    constructor
    · intro hgood
      rw [hcp, if_pos (by exact ⟨hgood.1, hgood.2.1, hgood.2.2⟩)]
    · intro hbad
      rw [hcp, if_neg (by intro hc; exact hbad ⟨hc.1, hc.2.1, hc.2.2⟩)]
  · intro hdummy hds
    unfold choose_port
    rw [if_neg (by rw [hdummy]; exact Bool.false_ne_true), hds]
  · intro i hi
    unfold lowest_free_port at hi
    obtain ⟨h1, h2, h3, h4⟩ := find?_range'_some (port_free dp) 1 (MAX_PORTS - 1) i hi
    rw [show 1 + (MAX_PORTS - 1) = MAX_PORTS from rfl] at h2
    exact ⟨h1, h2, h3, h4⟩
  · intro hnone j hj1 hj2
    unfold lowest_free_port at hnone
    have := find?_range'_none (port_free dp) 1 (MAX_PORTS - 1) hnone j hj1
    rw [show 1 + (MAX_PORTS - 1) = MAX_PORTS from rfl] at this
    exact this hj2
  · intro p hp
    unfold dpif_netdev_port_add
    dsimp only
    rw [hp]
    rfl
  · intro hp
    unfold dpif_netdev_port_add
    dsimp only
    rw [hp]

/-- C7 witness: on a dummy-class datapath, an explicit request for port
300 fails EFBIG; the name "br5" contains the digit 5 and starts with
"br", and choose_port assigns 100 + 5 = 105. -/
theorem port_add_choose_port_spec_witness :
    MAX_PORTS ≤ 300 ∧
    dpif_netdev_port_add dpDummyClass nameBr5 (some 300) = (EFBIG, some 300, dpDummyClass) ∧
    dpDummyClass.classIsDefault = false ∧
    digitSuffix nameBr5 = some ['5'] ∧
    choose_port dpDummyClass nameBr5 = some 105 := by
  have h := port_add_choose_port_spec dpDummyClass nameBr5
  refine ⟨by decide, h.1 300 (by decide), rfl, rfl, ?_⟩
  have h5 := (h.2.2.2.2.1 ['5'] rfl rfl).1 (by decide)
  exact h5

end OVS
